import Mathlib

/-!
Verification of the directory-action lifecycle of the pkg5 packaging
system (`modules/actions/directory.py`) and its content-address sharding
helper (`modules/misc.py`).

Python strings are embedded as `List Char`; the OS layer (makedirs,
chmod, chown, rmdir, isdir, the salvage callback, privilege query,
owner/group resolution and the deferred `validate` check) is embedded as
an explicit state-threading interface `OSM σ`, so that a single
translation of `DirectoryAction.install` / `DirectoryAction.remove` can
be run both against an arbitrary outcome oracle (recording the sequence
of OS calls) and against a small POSIX-like filesystem model.
-/

set_option maxRecDepth 4096

abbrev Str : Type := List Char

/-- Errno values distinguished by `directory.py`; `other n` stands for any
further OS error number. -/
inductive Errno : Type where
  | enoent
  | eexist
  | enotempty
  | eacces
  | erofs
  | eperm
  | enosys
  | other (n : Nat)
  deriving DecidableEq, Repr

/-- Python-level exceptions that can escape the translated methods. -/
inductive PyErr : Type where
  | osError (e : Errno)
  | typeError
  | validationError
  | invalidAction
  deriving DecidableEq, Repr

/-- Observable OS calls issued by the translated methods, used as the
recording state of the outcome-oracle instantiation. -/
inductive Eff : Type where
  | makedirs (path : Str) (mode : Int)
  | isdir (path : Str)
  | chmod (path : Str) (mode : Int)
  | chown (path : Str) (uid gid : Nat)
  | rmdir (path : Str)
  | salvagedir (path : Str)
  deriving DecidableEq, Repr

def Eff.isChown : Eff → Bool
  | .chown _ _ _ => true
  | _ => false

def Eff.isSalvage : Eff → Bool
  | .salvagedir _ => true
  | _ => false

/-- Octal digit test for Python's `int(s, 8)`. -/
def isOctDigit (c : Char) : Bool := '0' ≤ c && c ≤ '7'

/-- Value of a nonempty all-octal digit run, `none` otherwise. -/
def octDigits (l : Str) : Option Nat :=
  match l with
  | [] => none
  | _ =>
    if l.all isOctDigit then
      some (l.foldl (fun n c => n * 8 + (c.toNat - 48)) 0)
    else none

/-- Translation of Python 2 `int(s, 8)`: surrounding whitespace, an
optional sign, an optional `0o`/`0O` prefix, then octal digits; `none`
models the `ValueError` raised on any other input. -/
def parseOctal (s : Str) : Option Int :=
  let t := ((s.dropWhile Char.isWhitespace).reverse.dropWhile Char.isWhitespace).reverse
  let signed : Bool × Str :=
    match t with
    | '-' :: r => (true, r)
    | '+' :: r => (false, r)
    | _ => (false, t)
  let t2 :=
    match signed.2 with
    | '0' :: 'o' :: r => r
    | '0' :: 'O' :: r => r
    | _ => signed.2
  (octDigits t2).map (fun n => if signed.1 then -(n : Int) else (n : Int))

/-- Translation of `str.lstrip(os.path.sep)`: drop every leading `/`. -/
def lstripSep (p : Str) : Str := p.dropWhile (· = '/')

/-- Translation of `str.rstrip(os.path.sep)`: drop every trailing `/`. -/
def rstripSep (p : Str) : Str := (p.reverse.dropWhile (· = '/')).reverse

/-- Drops exactly one leading separator when one is present (used to state
the path-normalization property of the spec). -/
def stripOneSep (p : Str) : Str :=
  match p with
  | [] => []
  | c :: r => if c = '/' then r else c :: r

/-- Translation of `posixpath.basename`: the suffix after the last `/`. -/
def basename (p : Str) : Str := (p.splitOn '/').getLastD []

/-- Translation of `posixpath.normpath` (Python 2): collapse separator
runs, drop `.` components, resolve `..` against preceding components,
preserving the special double-slash root. -/
def normpath (p : Str) : Str :=
  if p = [] then ['.']
  else
    let ns : Nat :=
      if p.take 1 = ['/'] then
        if p.take 2 = ['/', '/'] ∧ ¬ p.take 3 = ['/', '/', '/'] then 2 else 1
      else 0
    let comps := p.splitOn '/'
    let newComps := comps.foldl (fun acc comp =>
      if comp = [] ∨ comp = ['.'] then acc
      else if comp ≠ ['.', '.'] ∨ (ns = 0 ∧ acc = []) ∨
          (acc ≠ [] ∧ acc.getLast? = some ['.', '.']) then acc ++ [comp]
      else if acc ≠ [] then acc.dropLast
      else acc) []
    let joined := List.intercalate ['/'] newComps
    let out := List.replicate ns '/' ++ joined
    if out = [] then ['.'] else out

/-- Translation of the two-argument core of `posixpath.join` (Python 2):
an absolute second component discards the first. -/
def pyJoin2 (a b : Str) : Str :=
  if b.take 1 = ['/'] then b
  else if a = [] ∨ a.getLast? = some '/' then a ++ b
  else a ++ '/' :: b

/-- Translation of `misc.hash_file_name`:
`os.path.join(f[0:2], f[2:8], f)`. -/
def hash_file_name (f : Str) : Str :=
  pyJoin2 (pyJoin2 (f.take 2) ((f.drop 2).take 6)) f

/-- Attribute state of a `DirectoryAction`: `mode` is
`attrs.get("mode", None)`; `owner`, `group` and the normalized `path` are
the remaining attributes used by the lifecycle methods. -/
structure Act : Type where
  mode : Option Str
  owner : Str
  group : Str
  path : Str
  deriving DecidableEq, Repr

/-- Translation of `DirectoryAction.__init__` for a raw `path` attribute:
strip the leading separator run, fail with `InvalidActionError` ("Empty
path attribute") when nothing remains. -/
def mkDirAction (mode : Option Str) (owner group : Str) (rawPath : Str) :
    Except PyErr Act :=
  let p := lstripSep rawPath
  if p = [] then .error .invalidAction
  else .ok ⟨mode, owner, group, p⟩

/-- OS interface threaded through the translated methods. `makedirs`,
`chmod`, `chown` and `rmdir` return `none` for success or the errno of
the `OSError` they raise; `salvagedir` is `pkgplan.image.salvagedir`;
`validateRaises` / `origValidateRaises` model whether the deferred
`validate` call (in `generic.py`, outside the translated sources) raises;
`uidgidDest` / `uidgidOrig` model `get_fsobj_uid_gid` resolution of the
owner and group attributes for the destination and origin package. -/
structure OSM (σ : Type) : Type where
  is_admin : Bool
  makedirs : Str → Int → σ → Option Errno × σ
  isdir : Str → σ → Bool × σ
  chmod : Str → Int → σ → Option Errno × σ
  chown : Str → Nat → Nat → σ → Option Errno × σ
  rmdir : Str → σ → Option Errno × σ
  salvagedir : Str → σ → σ
  validateRaises : Bool
  origValidateRaises : Bool
  uidgidDest : Str → Str → Nat × Nat
  uidgidOrig : Str → Str → Nat × Nat

/-- Final ownership step of `DirectoryAction.install` (lines 121-127):
chown when there is no prior action or resolved owner/group differ;
`EPERM` and `ENOSYS` are tolerated, all other failures propagate. -/
def chownStep {σ : Type} (os : OSM σ) (path : Str) (uid gid : Nat)
    (od : Option (Option Int × Nat × Nat)) (s : σ) : Except PyErr Unit × σ :=
  let doChown : Bool :=
    match od with
    | none => true
    | some (_, ouid, ogid) => decide (ouid ≠ uid) || decide (ogid ≠ gid)
  if doChown then
    match os.chown path uid gid s with
    | (none, s1) => (.ok (), s1)
    | (some e, s1) =>
      if e ≠ .eperm ∧ e ≠ .enosys then (.error (.osError e), s1)
      else (.ok (), s1)
  else (.ok (), s)

/-- Translation of `DirectoryAction.install` (directory.py lines 63-127).
Mode strings are parsed with `int(_, 8)`; a parse failure defers to
`validate`, and when `validate` returns normally the mode stays `None`,
so the later uses (`mode |= S_IWUSR`, `makedirs`, `chmod`) raise
`TypeError`. The absolute path is
`normpath(root + os.path.sep + attrs["path"])`. Without administrative
privilege the owner-write bit `0o200` is forced onto the in-memory mode.
Fresh creates tolerate `EEXIST`, and tolerate `EROFS` (with an early
return that skips the ownership step) exactly when the directory already
exists; updates chmod only when the computed modes differ. `makedirs`
called with a `None` mode is modelled as raising `TypeError` without
creating anything, per the spec's creation contract. -/
def install {σ : Type} (os : OSM σ) (a : Act) (orig : Option Act)
    (root : Str) (s : σ) : Except PyErr Unit × σ :=
  let mode0 : Option Int := a.mode.bind parseOctal
  if mode0 = none ∧ os.validateRaises then (.error .validationError, s)
  else
    let ug := os.uidgidDest a.owner a.group
    let odata : Except PyErr (Option (Option Int × Nat × Nat)) :=
      match orig with
      | none => .ok none
      | some o =>
        let om := o.mode.bind parseOctal
        if om = none ∧ os.origValidateRaises then .error .validationError
        else .ok (some (om, os.uidgidOrig o.owner o.group))
    match odata with
    | .error e => (.error e, s)
    | .ok od =>
      let path := normpath (root ++ '/' :: a.path)
      let forced : Except PyErr (Option Int) :=
        if os.is_admin then .ok mode0
        else
          match mode0 with
          | none => .error .typeError
          | some m => .ok (some (Int.lor m 128))
      match forced with
      | .error e => (.error e, s)
      | .ok mode1 =>
        match od with
        | none =>
          match mode1 with
          | none => (.error .typeError, s)
          | some m =>
            match os.makedirs path m s with
            | (none, s1) => chownStep os path ug.1 ug.2 od s1
            | (some e, s1) =>
              if e = .erofs then
                match os.isdir path s1 with
                | (true, s2) => (.ok (), s2)
                | (false, s2) => (.error (.osError .erofs), s2)
              else if e ≠ .eexist then (.error (.osError e), s1)
              else chownStep os path ug.1 ug.2 od s1
        | some (om, _, _) =>
          if mode1 ≠ om then
            match mode1 with
            | none => (.error .typeError, s)
            | some m =>
              match os.chmod path m s with
              | (none, s1) => chownStep os path ug.1 ug.2 od s1
              | (some e, s1) => (.error (.osError e), s1)
          else chownStep os path ug.1 ug.2 od s

/-- Translation of `DirectoryAction.remove` (directory.py lines 138-153):
`rmdir` the absolute path; `ENOENT` is success, `EEXIST`/`ENOTEMPTY`
route the image-relative normalized path to `image.salvagedir`, `EACCES`
is silently tolerated, everything else propagates. -/
def remove {σ : Type} (os : OSM σ) (a : Act) (root : Str) (s : σ) :
    Except PyErr Unit × σ :=
  let localpath := normpath a.path
  let path := normpath (root ++ '/' :: localpath)
  match os.rmdir path s with
  | (none, s1) => (.ok (), s1)
  | (some e, s1) =>
    if e = .enoent then (.ok (), s1)
    else if e = .eexist ∨ e = .enotempty then (.ok (), os.salvagedir localpath s1)
    else if e ≠ .eacces then (.error (.osError e), s1)
    else (.ok (), s1)

def sDirectory : Str := "directory".toList

def sBasename : Str := "basename".toList

def sPath : Str := "path".toList

/-- Translation of `DirectoryAction.generate_indices`. -/
def generate_indices (a : Act) : List (Str × Str × Str × Option Str) :=
  [ (sDirectory, sBasename, basename (rstripSep a.path), none),
    (sDirectory, sPath, '/' :: a.path, none) ]

/-- Outcome oracle: one fixed result per OS call kind, plus privilege,
validate and owner/group resolution outcomes. -/
structure EnvRes : Type where
  is_admin : Bool
  makedirsRes : Option Errno
  isdirRes : Bool
  chmodRes : Option Errno
  chownRes : Option Errno
  rmdirRes : Option Errno
  validateRaises : Bool
  origValidateRaises : Bool
  uid : Nat
  gid : Nat
  ouid : Nat
  ogid : Nat
  deriving DecidableEq, Repr

/-- Recording instantiation of the OS interface: every call appends
itself to the trace and answers with the oracle's fixed result. -/
def recOSM (r : EnvRes) : OSM (List Eff) where
  is_admin := r.is_admin
  makedirs := fun p m s => (r.makedirsRes, s ++ [.makedirs p m])
  isdir := fun p s => (r.isdirRes, s ++ [.isdir p])
  chmod := fun p m s => (r.chmodRes, s ++ [.chmod p m])
  chown := fun p u g s => (r.chownRes, s ++ [.chown p u g])
  rmdir := fun p s => (r.rmdirRes, s ++ [.rmdir p])
  salvagedir := fun p s => s ++ [.salvagedir p]
  validateRaises := r.validateRaises
  origValidateRaises := r.origValidateRaises
  uidgidDest := fun _ _ => (r.uid, r.gid)
  uidgidOrig := fun _ _ => (r.ouid, r.ogid)

/-- On-disk metadata of the single target directory in the small
filesystem model. -/
structure DirMeta : Type where
  dmode : Int
  duid : Nat
  dgid : Nat
  deriving DecidableEq, Repr

/-- Filesystem model state: `none` when the target path is absent. -/
abbrev FsState : Type := Option DirMeta

/-- POSIX-like instantiation of the OS interface for the single target
path: creation fails with `EEXIST` when present, chmod/chown succeed on a
present directory, process creation credentials are `puid`/`pgid`, and
`res` resolves owner/group names. -/
def fsOSM (adm : Bool) (puid pgid : Nat) (res : Str → Str → Nat × Nat) :
    OSM FsState where
  is_admin := adm
  makedirs := fun _ m s =>
    match s with
    | some d => (some .eexist, some d)
    | none => (none, some ⟨m, puid, pgid⟩)
  isdir := fun _ s => (s.isSome, s)
  chmod := fun _ m s =>
    match s with
    | some d => (none, some ⟨m, d.duid, d.dgid⟩)
    | none => (some .enoent, s)
  chown := fun _ u g s =>
    match s with
    | some d => (none, some ⟨d.dmode, u, g⟩)
    | none => (some .enoent, s)
  rmdir := fun _ s =>
    match s with
    | some _ => (none, none)
    | none => (some .enoent, none)
  salvagedir := fun _ s => s
  validateRaises := true
  origValidateRaises := true
  uidgidDest := res
  uidgidOrig := res

/-- Sample action used by concrete witnesses: mode `0755`, owner `root`,
group `bin`, path `d`. -/
def actD : Act := ⟨some ("755".toList), "root".toList, "bin".toList, "d".toList⟩

/-- Sample oracle with every call succeeding under privilege. -/
def envBase : EnvRes :=
  ⟨true, none, false, none, none, none, true, true, 1, 2, 3, 4⟩

/-- Stripping one leading separator first does not change the result of
stripping the whole leading separator run. -/
theorem lstripSep_stripOneSep (p : Str) :
    lstripSep (stripOneSep p) = lstripSep p := by
  cases p with
  | nil => rfl
  | cons c r =>
    by_cases hc : c = '/'
    · subst hc
      simp [stripOneSep, lstripSep, List.dropWhile_cons]
    · simp [stripOneSep, lstripSep, List.dropWhile_cons, hc]

/-- Emptiness of the stripped path is equivalent to the raw path being
empty or all separators. -/
theorem lstripSep_eq_nil_iff (p : Str) :
    lstripSep p = [] ↔ p.all (· = '/') = true := by
  simp [lstripSep, List.dropWhile_eq_nil_iff, List.all_eq_true]

/-- C7: constructing a directory action strips the whole leading
separator run, which agrees with normalizing after stripping exactly one
leading separator; an empty or all-separator raw path is rejected with
the empty-path `InvalidActionError`. -/
theorem dir_init_path_normalization (mo : Option Str) (ow gr raw : Str) :
    (raw.all (· = '/') = true → mkDirAction mo ow gr raw = .error .invalidAction) ∧
    (raw.all (· = '/') = false → ∃ act, mkDirAction mo ow gr raw = .ok act ∧
      act.path ≠ [] ∧ act.path = lstripSep raw ∧
      lstripSep raw = lstripSep (stripOneSep raw)) := by
  constructor
  · intro h
    have hnil : lstripSep raw = [] := (lstripSep_eq_nil_iff raw).2 h
    simp [mkDirAction, hnil]
  · intro h
    have hne : lstripSep raw ≠ [] := by
      intro hc
      rw [(lstripSep_eq_nil_iff raw).1 hc] at h
      simp at h
    refine ⟨⟨mo, ow, gr, lstripSep raw⟩, ?_, hne, rfl, (lstripSep_stripOneSep raw).symm⟩
    simp [mkDirAction, hne]

/-- C7 witness: the concrete raw paths `///usr/lib` and `///` behave as
the theorem states. -/
theorem dir_init_path_normalization_witness :
    (("///".toList).all (· = '/') = true →
      mkDirAction none ([]) ([]) ("///".toList) = .error .invalidAction) ∧
    (("///usr/lib".toList).all (· = '/') = false →
      ∃ act, mkDirAction none ([]) ([]) ("///usr/lib".toList) = .ok act ∧
        act.path ≠ [] ∧ act.path = lstripSep ("///usr/lib".toList) ∧
        lstripSep ("///usr/lib".toList) =
          lstripSep (stripOneSep ("///usr/lib".toList))) :=
  ⟨(dir_init_path_normalization none ([]) ([]) ("///".toList)).1,
   (dir_init_path_normalization none ([]) ([]) ("///usr/lib".toList)).2⟩

/-- C9: generate_indices emits exactly two index tuples, the
`(directory, basename, base-name, None)` tuple and the
`(directory, path, /path, None)` tuple, and nothing else. -/
theorem generate_indices_exact (a : Act) :
    (generate_indices a).length = 2 ∧
    ∀ t, t ∈ generate_indices a ↔
      (t = (sDirectory, sBasename, basename (rstripSep a.path), none) ∨
       t = (sDirectory, sPath, '/' :: a.path, none)) := by
  refine ⟨rfl, fun t => ?_⟩
  simp [generate_indices]

/-- C10: when the mode attribute is absent or fails octal parsing,
install with no prior action raises (a validation error when `validate`
raises, otherwise a `TypeError` at the write-bit forcing or creation
step) and performs no OS call at all, so no directory is ever created. -/
theorem invalid_mode_install_raises (r : EnvRes) (a : Act) (root : Str)
    (h : a.mode.bind parseOctal = none) :
    ∃ e, install (recOSM r) a none root [] = (.error e, []) := by
  by_cases hv : r.validateRaises
  · exact ⟨.validationError, by simp [install, recOSM, h, hv]⟩
  · by_cases ha : r.is_admin
    · exact ⟨.typeError, by simp [install, recOSM, h, hv, ha]⟩
    · exact ⟨.typeError, by simp [install, recOSM, h, hv, ha]⟩

/-- C10 witness: a directory action with no mode attribute fails with no
OS effect, under an oracle whose `validate` returns normally. -/
theorem invalid_mode_install_raises_witness :
    ∃ e, install (recOSM { envBase with validateRaises := false })
      { actD with mode := none } none ("/r".toList) [] = (.error e, []) :=
  invalid_mode_install_raises { envBase with validateRaises := false }
    { actD with mode := none } ("/r".toList) rfl

/-- C1: remove succeeds when the target is already gone, routes the
image-relative normalized path to the salvage callback (and succeeds)
when the directory is non-empty (`EEXIST` or `ENOTEMPTY`), and
propagates every OS failure outside the tolerated set
`{ENOENT, EEXIST, ENOTEMPTY, EACCES}`. -/
theorem remove_tolerates_and_salvages (r : EnvRes) (a : Act) (root : Str) :
    (r.rmdirRes = none → remove (recOSM r) a root [] =
      (.ok (), [.rmdir (normpath (root ++ '/' :: normpath a.path))])) ∧
    (r.rmdirRes = some .enoent → remove (recOSM r) a root [] =
      (.ok (), [.rmdir (normpath (root ++ '/' :: normpath a.path))])) ∧
    (r.rmdirRes = some .enotempty → remove (recOSM r) a root [] =
      (.ok (), [.rmdir (normpath (root ++ '/' :: normpath a.path)),
                .salvagedir (normpath a.path)])) ∧
    (r.rmdirRes = some .eexist → remove (recOSM r) a root [] =
      (.ok (), [.rmdir (normpath (root ++ '/' :: normpath a.path)),
                .salvagedir (normpath a.path)])) ∧
    (∀ e, r.rmdirRes = some e →
      e ∉ ([.enoent, .eexist, .enotempty, .eacces] : List Errno) →
      remove (recOSM r) a root [] =
        (.error (.osError e), [.rmdir (normpath (root ++ '/' :: normpath a.path))])) := by
  refine ⟨fun h => ?_, fun h => ?_, fun h => ?_, fun h => ?_, fun e h hne => ?_⟩
  · simp [remove, recOSM, h]
  · simp [remove, recOSM, h]
  · simp [remove, recOSM, h]
  · simp [remove, recOSM, h]
  · simp only [List.mem_cons, List.not_mem_nil, or_false, not_or] at hne
    obtain ⟨h1, h2, h3, h4⟩ := hne
    simp [remove, recOSM, h, h1, h2, h3, h4]

/-- C1 witness: concrete non-empty-directory removal is salvaged, and a
concrete `EPERM` failure propagates. -/
theorem remove_tolerates_and_salvages_witness :
    remove (recOSM { envBase with rmdirRes := some .enotempty }) actD ("/r".toList) [] =
      (.ok (), [.rmdir ("/r/d".toList), .salvagedir ("d".toList)]) ∧
    remove (recOSM { envBase with rmdirRes := some .eperm }) actD ("/r".toList) [] =
      (.error (.osError .eperm), [.rmdir ("/r/d".toList)]) :=
  ⟨(remove_tolerates_and_salvages { envBase with rmdirRes := some .enotempty }
      actD ("/r".toList)).2.2.1 rfl,
   (remove_tolerates_and_salvages { envBase with rmdirRes := some .eperm }
      actD ("/r".toList)).2.2.2.2 .eperm rfl (by decide)⟩

/-- C4 counterexample: on an `EACCES` failure the code returns success
without calling the salvage callback at all, so the claim that the path
is routed to the Salvage Subsystem is false: the complete trace of the
call is the single `rmdir`, and contains no salvage effect. -/
theorem remove_eacces_not_salvaged_cex :
    remove (recOSM { envBase with rmdirRes := some .eacces }) actD ("/r".toList) [] =
      (.ok (), [.rmdir ("/r/d".toList)]) ∧
    ∀ t ∈ [Eff.rmdir ("/r/d".toList)], t.isSalvage = false :=
  ⟨by rfl, by decide⟩

/-- C4 amended: an `EACCES` failure from rmdir is tolerated — remove
returns success — but the path is not handed to the Salvage Subsystem:
the trace consists of the rmdir call only. -/
theorem remove_eacces_tolerated_without_salvage (r : EnvRes) (a : Act) (root : Str)
    (h : r.rmdirRes = some .eacces) :
    remove (recOSM r) a root [] =
      (.ok (), [.rmdir (normpath (root ++ '/' :: normpath a.path))]) := by
  simp [remove, recOSM, h]

/-- C4 amended witness: the concrete `EACCES` removal succeeds with a
trace of just the rmdir call. -/
theorem remove_eacces_tolerated_without_salvage_witness :
    remove (recOSM { envBase with rmdirRes := some .eacces }) actD ("/r".toList) [] =
      (.ok (), [.rmdir ("/r/d".toList)]) :=
  remove_eacces_tolerated_without_salvage { envBase with rmdirRes := some .eacces }
    actD ("/r".toList) rfl

/-- C2: a fresh install (no prior action) attempts directory creation,
tolerates an already-exists outcome as success, tolerates a
read-only-filesystem failure exactly when a directory already exists at
the computed absolute path, and propagates the read-only failure and
every other creation failure otherwise (chown outcome held successful to
isolate the creation step). -/
theorem install_fresh_create (r : EnvRes) (a : Act) (root ms : Str) (m : Int)
    (hm : a.mode = some ms) (hp : parseOctal ms = some m) (hc : r.chownRes = none) :
    (r.makedirsRes = none → install (recOSM r) a none root [] =
      (.ok (), [.makedirs (normpath (root ++ '/' :: a.path))
                  (if r.is_admin then m else Int.lor m 128),
                .chown (normpath (root ++ '/' :: a.path)) r.uid r.gid])) ∧
    (r.makedirsRes = some .eexist → install (recOSM r) a none root [] =
      (.ok (), [.makedirs (normpath (root ++ '/' :: a.path))
                  (if r.is_admin then m else Int.lor m 128),
                .chown (normpath (root ++ '/' :: a.path)) r.uid r.gid])) ∧
    (r.makedirsRes = some .erofs → r.isdirRes = true →
      install (recOSM r) a none root [] =
      (.ok (), [.makedirs (normpath (root ++ '/' :: a.path))
                  (if r.is_admin then m else Int.lor m 128),
                .isdir (normpath (root ++ '/' :: a.path))])) ∧
    (r.makedirsRes = some .erofs → r.isdirRes = false →
      install (recOSM r) a none root [] =
      (.error (.osError .erofs),
       [.makedirs (normpath (root ++ '/' :: a.path))
          (if r.is_admin then m else Int.lor m 128),
        .isdir (normpath (root ++ '/' :: a.path))])) ∧
    (∀ e, r.makedirsRes = some e → e ≠ .eexist → e ≠ .erofs →
      install (recOSM r) a none root [] =
      (.error (.osError e),
       [.makedirs (normpath (root ++ '/' :: a.path))
          (if r.is_admin then m else Int.lor m 128)])) := by
  refine ⟨fun h => ?_, fun h => ?_, fun h hd => ?_, fun h hd => ?_,
    fun e h h1 h2 => ?_⟩ <;>
    by_cases ha : r.is_admin <;>
    simp_all [install, chownStep, recOSM]

/-- C2 witness: with creation reporting a read-only filesystem, the
concrete action installs successfully when the directory exists and
fails with the read-only error when it does not. -/
theorem install_fresh_create_witness :
    install (recOSM { envBase with makedirsRes := some .erofs, isdirRes := true })
        actD none ("/r".toList) [] =
      (.ok (), [.makedirs ("/r/d".toList) 493, .isdir ("/r/d".toList)]) ∧
    install (recOSM { envBase with makedirsRes := some .erofs })
        actD none ("/r".toList) [] =
      (.error (.osError .erofs),
       [.makedirs ("/r/d".toList) 493, .isdir ("/r/d".toList)]) :=
  ⟨(install_fresh_create { envBase with makedirsRes := some .erofs, isdirRes := true }
      actD ("/r".toList) ("755".toList) 493 rfl (by decide) rfl).2.2.1 rfl rfl,
   (install_fresh_create { envBase with makedirsRes := some .erofs }
      actD ("/r".toList) ("755".toList) 493 rfl (by decide) rfl).2.2.2.1 rfl rfl⟩

/-- Sample action with mode `0555` (no owner-write bit). -/
def act555 : Act := ⟨some ("555".toList), "root".toList, "bin".toList, "d".toList⟩

/-- Helper: under the recording oracle the ownership step either leaves
the trace unchanged or appends exactly one chown call. -/
theorem chownStep_trace (r : EnvRes) (p : Str) (u g : Nat)
    (od : Option (Option Int × Nat × Nat)) (s : List Eff) :
    (chownStep (recOSM r) p u g od s).2 = s ∨
    (chownStep (recOSM r) p u g od s).2 = s ++ [.chown p u g] := by
  rcases od with _ | ⟨om, ouid, ogid⟩
  · rcases h : r.chownRes with _ | e
    · right
      simp [chownStep, recOSM, h]
    · by_cases hc : e ≠ Errno.eperm ∧ e ≠ Errno.enosys
      · right
        simp [chownStep, recOSM, h, hc]
      · right
        simp [chownStep, recOSM, h, hc]
  · by_cases hu : ouid = u
    · by_cases hg : ogid = g
      · left
        simp [chownStep, recOSM, hu, hg]
      · rcases h : r.chownRes with _ | e
        · right
          simp [chownStep, recOSM, h, hu, hg]
        · by_cases hc : e ≠ Errno.eperm ∧ e ≠ Errno.enosys
          · right
            simp [chownStep, recOSM, h, hu, hg, hc]
          · right
            simp [chownStep, recOSM, h, hu, hg, hc]
    · rcases h : r.chownRes with _ | e
      · right
        simp [chownStep, recOSM, h, hu]
      · by_cases hc : e ≠ Errno.eperm ∧ e ≠ Errno.enosys
        · right
          simp [chownStep, recOSM, h, hu, hc]
        · right
          simp [chownStep, recOSM, h, hu, hc]

/-- C5 counterexample: a non-privileged update install whose prior and
new mode are both `0555` performs a chmod with mode `0o755 = 493`, i.e.
with the forced owner-write bit `0o200` set, on the existing directory —
refuting the claim that the forced bit is applied to the create-time
mode only and not on the update path. -/
theorem forced_write_update_cex :
    install (recOSM { envBase with is_admin := false, ouid := 1, ogid := 2 })
        act555 (some act555) ("/r".toList) [] =
      (.ok (), [.chmod ("/r/d".toList) 493]) ∧
    parseOctal ("555".toList) = some 365 ∧
    Int.lor 365 128 = 493 ∧ (493 : Int) ≠ 365 :=
  ⟨by rfl, by decide, by decide, by decide⟩

/-- C5 amended: without administrative privilege the owner-write bit is
forced onto the in-memory mode used for creation and equally onto the
mode used on the update path (both in the comparison with the prior mode
and as the chmod argument); only the stored attribute is untouched. -/
theorem install_forced_write_bit (r : EnvRes) (a o : Act) (root ms oms : Str)
    (m om : Int) (hadm : r.is_admin = false)
    (hm : a.mode = some ms) (hp : parseOctal ms = some m)
    (hom : o.mode = some oms) (hop : parseOctal oms = some om) :
    ((install (recOSM r) a none root []).2.head? =
      some (.makedirs (normpath (root ++ '/' :: a.path)) (Int.lor m 128))) ∧
    (Int.lor m 128 ≠ om →
      (install (recOSM r) a (some o) root []).2.head? =
        some (.chmod (normpath (root ++ '/' :: a.path)) (Int.lor m 128))) ∧
    (Int.lor m 128 = om →
      ∀ t ∈ (install (recOSM r) a (some o) root []).2, t.isChown = true) := by
  refine ⟨?_, fun hne => ?_, fun heq t ht => ?_⟩
  · rcases hmk : r.makedirsRes with _ | e
    · rcases chownStep_trace r (normpath (root ++ '/' :: a.path)) r.uid r.gid none
        ([] ++ [.makedirs (normpath (root ++ '/' :: a.path)) (Int.lor m 128)]) with h | h <;>
        simp_all [install, recOSM]
    · by_cases he : e = Errno.erofs
      · subst he
        rcases hd : r.isdirRes <;> simp_all [install, recOSM]
      · by_cases he2 : e = Errno.eexist
        · subst he2
          rcases chownStep_trace r (normpath (root ++ '/' :: a.path)) r.uid r.gid none
            ([] ++ [.makedirs (normpath (root ++ '/' :: a.path)) (Int.lor m 128)]) with h | h <;>
            simp_all [install, recOSM]
        · simp_all [install, recOSM]
  · rcases hcm : r.chmodRes with _ | e
    · rcases chownStep_trace r (normpath (root ++ '/' :: a.path)) r.uid r.gid
        (some (some om, r.ouid, r.ogid))
        ([] ++ [.chmod (normpath (root ++ '/' :: a.path)) (Int.lor m 128)]) with h | h <;>
        simp_all [install, recOSM]
    · simp_all [install, recOSM]
  · rcases chownStep_trace r (normpath (root ++ '/' :: a.path)) r.uid r.gid
      (some (some om, r.ouid, r.ogid)) [] with h | h <;>
      simp_all [install, recOSM, Eff.isChown]

/-- C5 amended witness: concrete non-privileged installs of the `0555`
action force the write bit both at creation and on the update chmod. -/
theorem install_forced_write_bit_witness :
    ((install (recOSM { envBase with is_admin := false }) act555 none
        ("/r".toList) []).2.head? =
      some (.makedirs (normpath (("/r".toList) ++ '/' :: act555.path))
        (Int.lor 365 128))) ∧
    ((install (recOSM { envBase with is_admin := false }) act555 (some act555)
        ("/r".toList) []).2.head? =
      some (.chmod (normpath (("/r".toList) ++ '/' :: act555.path))
        (Int.lor 365 128))) :=
  ⟨(install_forced_write_bit { envBase with is_admin := false } act555 act555
      ("/r".toList) ("555".toList) ("555".toList) 365 365 rfl rfl (by decide)
      rfl (by decide)).1,
   (install_forced_write_bit { envBase with is_admin := false } act555 act555
      ("/r".toList) ("555".toList) ("555".toList) 365 365 rfl rfl (by decide)
      rfl (by decide)).2.1 (by decide)⟩

/-- C6 counterexample: a fresh install (no prior action) whose creation
reports a read-only filesystem while the directory already exists
returns success through the early-return path without ever attempting to
set ownership, refuting the claim that ownership is set exactly when
there is no prior action or owner/group differ. -/
theorem chown_skipped_on_erofs_cex :
    install (recOSM { envBase with makedirsRes := some .erofs, isdirRes := true })
        actD none ("/r".toList) [] =
      (.ok (), [.makedirs ("/r/d".toList) 493, .isdir ("/r/d".toList)]) ∧
    ∀ t ∈ [Eff.makedirs ("/r/d".toList) 493, Eff.isdir ("/r/d".toList)],
      t.isChown = false :=
  ⟨by rfl, by decide⟩

set_option maxHeartbeats 2000000 in
/-- C6 amended: on runs that reach the ownership step (creation not
short-circuited by the tolerated read-only early return or a propagated
failure, and the update chmod succeeding when attempted), ownership is
attempted exactly when there is no prior action or the resolved owner or
group differs; an `EPERM` or `ENOSYS` failure of the ownership change is
tolerated as success and every other ownership failure propagates. -/
theorem chown_exactly_when (r : EnvRes) (a : Act) (orig : Option Act)
    (root ms : Str) (m : Int)
    (hm : a.mode = some ms) (hp : parseOctal ms = some m)
    (homode : ∀ o ∈ orig, ∃ oms omv, o.mode = some oms ∧ parseOctal oms = some omv)
    (hreach1 : orig = none → r.makedirsRes = none ∨ r.makedirsRes = some .eexist)
    (hreach2 : orig ≠ none → r.chmodRes = none) :
    ((∃ t ∈ (install (recOSM r) a orig root []).2, t.isChown = true) ↔
      (orig = none ∨ r.ouid ≠ r.uid ∨ r.ogid ≠ r.gid)) ∧
    ((orig = none ∨ r.ouid ≠ r.uid ∨ r.ogid ≠ r.gid) →
      ((r.chownRes = none ∨ r.chownRes = some .eperm ∨ r.chownRes = some .enosys) →
        (install (recOSM r) a orig root []).1 = .ok ()) ∧
      (∀ e, r.chownRes = some e → e ≠ .eperm → e ≠ .enosys →
        (install (recOSM r) a orig root []).1 = .error (.osError e))) ∧
    (¬(orig = none ∨ r.ouid ≠ r.uid ∨ r.ogid ≠ r.gid) →
      (install (recOSM r) a orig root []).1 = .ok ()) := by
  rcases orig with _ | o
  · rcases hreach1 rfl with hmk | hmk <;>
      by_cases ha : r.is_admin <;>
      rcases hc : r.chownRes with _ | e <;>
      first
        | (simp_all [install, chownStep, recOSM, Eff.isChown]; done)
        | (by_cases he1 : e = Errno.eperm <;> by_cases he2 : e = Errno.enosys <;>
            simp_all [install, chownStep, recOSM, Eff.isChown])
  · have hcm : r.chmodRes = none := hreach2 (by simp)
    obtain ⟨oms, omv, ho, hop⟩ := homode o (by simp)
    by_cases ha : r.is_admin <;>
      by_cases hmo : (if r.is_admin = true then m else Int.lor m 128) = omv <;>
      by_cases h1 : r.ouid = r.uid <;>
      by_cases h2 : r.ogid = r.gid <;>
      rcases hc : r.chownRes with _ | e <;>
      first
        | (simp_all [install, chownStep, recOSM, Eff.isChown]; done)
        | (by_cases he1 : e = Errno.eperm <;> by_cases he2 : e = Errno.enosys <;>
            simp_all [install, chownStep, recOSM, Eff.isChown])

/-- C6 amended witness: a fresh concrete install with the ownership
change failing `EPERM` still attempts ownership and returns success. -/
theorem chown_exactly_when_witness :
    (∃ t ∈ (install (recOSM { envBase with chownRes := some .eperm }) actD none
        ("/r".toList) []).2, t.isChown = true) ∧
    (install (recOSM { envBase with chownRes := some .eperm }) actD none
        ("/r".toList) []).1 = .ok () :=
  ⟨((chown_exactly_when { envBase with chownRes := some .eperm } actD none
      ("/r".toList) ("755".toList) 493 rfl (by decide) (by simp)
      (fun _ => Or.inl rfl) (fun h => absurd rfl h)).1).2 (Or.inl rfl),
   ((chown_exactly_when { envBase with chownRes := some .eperm } actD none
      ("/r".toList) ("755".toList) 493 rfl (by decide) (by simp)
      (fun _ => Or.inl rfl) (fun h => absurd rfl h)).2.1 (Or.inl rfl)).1
      (Or.inr (Or.inl rfl))⟩

/-- C3: against the POSIX-like filesystem model, installing a directory
action with a valid mode twice from a fresh target succeeds both times
and leaves exactly the on-disk mode, owner and group of a single
install. -/
theorem install_idempotent (adm : Bool) (puid pgid : Nat)
    (res : Str → Str → Nat × Nat) (root : Str) (a : Act) (ms : Str) (m : Int)
    (hm : a.mode = some ms) (hp : parseOctal ms = some m) :
    install (fsOSM adm puid pgid res) a none root none =
      (.ok (), some ⟨(if adm then m else Int.lor m 128),
                     (res a.owner a.group).1, (res a.owner a.group).2⟩) ∧
    install (fsOSM adm puid pgid res) a none root
        (some ⟨(if adm then m else Int.lor m 128),
               (res a.owner a.group).1, (res a.owner a.group).2⟩) =
      (.ok (), some ⟨(if adm then m else Int.lor m 128),
                     (res a.owner a.group).1, (res a.owner a.group).2⟩) := by
  by_cases ha : adm <;> simp_all [install, chownStep, fsOSM]

/-- C3 witness: the concrete `0755` action installed twice on a fresh
model filesystem converges to mode `493`, owner `5`, group `6`. -/
theorem install_idempotent_witness :
    install (fsOSM true 9 9 (fun _ _ => (5, 6))) actD none ("/r".toList) none =
      (.ok (), some ⟨493, 5, 6⟩) ∧
    install (fsOSM true 9 9 (fun _ _ => (5, 6))) actD none ("/r".toList)
        (some ⟨493, 5, 6⟩) =
      (.ok (), some ⟨493, 5, 6⟩) :=
  install_idempotent true 9 9 (fun _ _ => (5, 6)) ("/r".toList) actD
    ("755".toList) 493 rfl (by decide)

/-- C8 counterexample: the claim quantifies over every hash string of at
least 8 characters, but for a hash beginning with the path separator the
join semantics of the source make the absolute last component discard
the two shard prefixes, so the result is not
`hash[0:2] / hash[2:8] / hash`. -/
theorem hash_file_name_sep_cex :
    8 ≤ (('/' :: "bcdefghi".toList) : Str).length ∧
    hash_file_name ('/' :: "bcdefghi".toList) = '/' :: "bcdefghi".toList ∧
    hash_file_name ('/' :: "bcdefghi".toList) ≠
      ('/' :: "bcdefghi".toList).take 2 ++ '/' ::
        ((('/' :: "bcdefghi".toList).drop 2).take 6 ++ '/' ::
          ('/' :: "bcdefghi".toList)) :=
  ⟨by decide, by rfl, by decide⟩

/-- Helper: an element selected by `getLast?` belongs to the list. -/
theorem mem_of_getLast?_eq (l : Str) (x : Char) (h : l.getLast? = some x) :
    x ∈ l := by
  obtain ⟨hne, hx⟩ := List.mem_getLast?_eq_getLast (Option.mem_def.mpr h)
  rw [hx]
  exact List.getLast_mem hne

/-- Helper: when neither component is empty, the right one is not
absolute and the left one does not end in a separator, the join inserts
exactly one separator. -/
theorem pyJoin2_clean (a b : Str) (ha : a ≠ []) (hal : a.getLast? ≠ some '/')
    (hbh : b.take 1 ≠ ['/']) :
    pyJoin2 a b = a ++ '/' :: b := by
  unfold pyJoin2
  rw [if_neg hbh, if_neg (not_or.mpr ⟨ha, hal⟩)]

/-- C8 amended: for every hash string of at least 8 characters that
contains no path separator, the sharding function returns
`hash[0:2] / hash[2:8] / hash` with single separators inserted; for
hashes containing a separator the join semantics differ. -/
theorem hash_file_name_no_sep (f : Str) (h8 : 8 ≤ f.length)
    (hs : ∀ c ∈ f, c ≠ '/') :
    hash_file_name f = f.take 2 ++ '/' :: ((f.drop 2).take 6 ++ '/' :: f) := by
  have hfa : f.take 2 ≠ [] := by
    intro h
    have h0 : (f.take 2).length = 0 := by rw [h]; rfl
    rw [List.length_take] at h0
    omega
  have hba : (f.drop 2).take 6 ≠ [] := by
    intro h
    have h0 : ((f.drop 2).take 6).length = 0 := by rw [h]; rfl
    rw [List.length_take, List.length_drop] at h0
    omega
  have hal : (f.take 2).getLast? ≠ some '/' := by
    intro h
    exact hs '/' (List.take_subset 2 f (mem_of_getLast?_eq _ _ h)) rfl
  have hbh : ((f.drop 2).take 6).take 1 ≠ ['/'] := by
    intro h
    have hm : '/' ∈ ((f.drop 2).take 6).take 1 := by
      rw [h]
      exact List.mem_singleton.mpr rfl
    exact hs '/' (List.drop_subset 2 f
      (List.take_subset 6 _ (List.take_subset 1 _ hm))) rfl
  have happ : f.take 2 ++ '/' :: (f.drop 2).take 6 ≠ [] := by
    intro h
    exact hfa (List.append_eq_nil.mp h).1
  have hbl : (f.take 2 ++ '/' :: (f.drop 2).take 6).getLast? ≠ some '/' := by
    rw [List.getLast?_append_of_ne_nil _ (List.cons_ne_nil _ _)]
    rcases hb : (f.drop 2).take 6 with _ | ⟨y, ys⟩
    · exact absurd hb hba
    · rw [List.getLast?_cons_cons]
      intro h
      have hmem : '/' ∈ (f.drop 2).take 6 := by
        rw [hb]
        exact mem_of_getLast?_eq _ _ h
      exact hs '/' (List.drop_subset 2 f (List.take_subset 6 _ hmem)) rfl
  have hfh : f.take 1 ≠ ['/'] := by
    intro h
    have hm : '/' ∈ f.take 1 := by
      rw [h]
      exact List.mem_singleton.mpr rfl
    exact hs '/' (List.take_subset 1 f hm) rfl
  unfold hash_file_name
  rw [pyJoin2_clean _ _ hfa hal hbh, pyJoin2_clean _ _ happ hbl hfh]
  simp [List.append_assoc, List.cons_append]

/-- C8 amended witness: the spec's concrete sharding example holds. -/
theorem hash_file_name_no_sep_witness :
    hash_file_name ("abcdefghijklmnopqrstuvwxyz".toList) =
      ("abcdefghijklmnopqrstuvwxyz".toList).take 2 ++ '/' ::
        ((("abcdefghijklmnopqrstuvwxyz".toList).drop 2).take 6 ++ '/' ::
          ("abcdefghijklmnopqrstuvwxyz".toList)) ∧
    hash_file_name ("abcdefghijklmnopqrstuvwxyz".toList) =
      "ab/cdefgh/abcdefghijklmnopqrstuvwxyz".toList :=
  ⟨hash_file_name_no_sep ("abcdefghijklmnopqrstuvwxyz".toList) (by decide) (by decide),
   by decide⟩
